import Mathlib

/-!
Verification of the v-animate plugin orchestration engine.

Shallow embedding of the core of the repository:
* `src/registry.ts` — `AnimationPluginRegistry`: activation, dependency and
  conflict validation, priority ordering, cleanup ordering, `setupPlugins`.
* `src/staggerDelays.ts` — `calculateStaggerDelays`.
* the shared per-frame clock (`RafCoordinator`) from the utils bundle.
* the orchestrator session lifecycle (`useAnimation.ts`): manual-override
  arbitration between explicit and automatic play/stop, and `cleanup()`.

JavaScript numbers are modelled as exact rationals/reals (the claims under
study never depend on floating-point rounding), JS `Map` iteration follows
insertion order, and `Array.prototype.sort` is modelled by the stable
insertion sort from Mathlib (ECMAScript sort is required to be stable).
-/

/-! ### Configuration values

A configuration is a JS object: a finite map from string keys to JS values.
`lookup` of a missing key yields `undefined`, as JS property access does. -/

/-- A JavaScript runtime value, as far as the activation logic inspects it:
`hasPluginOptions` in `registry.ts` distinguishes only `undefined`, `null`
and booleans; every other value (numbers, strings, objects) falls through
to its final `return true`. -/
inductive JSValue where
  | undefined
  | null
  | boolean (b : Bool)
  | number (q : ℚ)
  | str (s : String)
  | object
deriving DecidableEq

/-- A session configuration object (`UseAnimationOptions`): string-keyed
JS object, modelled as an association list in property order. -/
abbrev Options := List (String × JSValue)

/-- JS property access `options[key]`: first binding, `undefined` if absent. -/
def optValue (options : Options) (key : String) : JSValue :=
  (List.lookup key options).getD JSValue.undefined

/-! ### Module descriptors -/

/-- The static descriptor of a capability module (`AnimationPlugin` in
`types.ts`), restricted to the fields the registry logic reads.  A missing
`requires`/`conflicts` array behaves exactly like an empty one (the source
guards with `if (plugin.requires)` before a `forEach`), so both are plain
lists.  `setup` is not carried: every registered plugin has one, and its
invocations are tracked by the trace returned from `setupPluginsRun`. -/
structure AnimationPlugin where
  name : String
  version : String
  priority : Option ℤ
  cleanupPriority : Option ℤ
  optionsKey : Option String
  requires : List String
  conflicts : List String
  shouldActivate : Option (Options → Bool)

/-- `plugin.optionsKey || plugin.name` — JS `||` also rejects the empty
string (falsy), falling back to the plugin name. -/
def optionsKeyOf (plugin : AnimationPlugin) : String :=
  match plugin.optionsKey with
  | some k => if k = "" then plugin.name else k
  | none => plugin.name

/-- `AnimationPluginRegistry.hasPluginOptions`: the fallback activation
test.  `undefined`/`null` ⇒ inactive, a boolean is returned as-is, and any
other present value (including `0` and `""`) activates the plugin. -/
def hasPluginOptions (plugin : AnimationPlugin) (options : Options) : Bool :=
  let value := optValue options (optionsKeyOf plugin)
  match value with
  | JSValue.undefined => false
  | JSValue.null => false
  | JSValue.boolean b => b
  | _ => true

/-- `AnimationPluginRegistry.getActivePlugins`: iterate the registry in
insertion order (JS `Map.forEach`), keeping plugins whose
`shouldActivate?.(options) ?? hasPluginOptions(plugin, options)` is true. -/
def getActivePlugins (registry : List AnimationPlugin) (options : Options) :
    List AnimationPlugin :=
  registry.filter fun plugin =>
    match plugin.shouldActivate with
    | some shouldActivate => shouldActivate options
    | none => hasPluginOptions plugin options

/-- Modelled from the spec: JS truthiness ("configuration has a truthy value
under the module's declared option key").  `undefined`, `null`, `false`,
`0` and `""` are falsy; everything else is truthy.  This definition follows
the spec's wording and exists only to compare the spec's activation rule
with the source's `hasPluginOptions`. -/
def specTruthy : JSValue → Bool
  | JSValue.undefined => false
  | JSValue.null => false
  | JSValue.boolean b => b
  | JSValue.number q => decide (q ≠ 0)
  | JSValue.str s => decide (s ≠ "")
  | JSValue.object => true

/-! ### Dependency and conflict validation -/

/-- `required.split('.')[0]` — the plugin name in front of a namespaced
requirement key such as `"responsive.scale"`: the characters before the
first `'.'` (the whole string when no dot occurs), which is exactly the
first element of `split('.')`. -/
def firstComponent (required : String) : String :=
  ⟨required.data.takeWhile fun ch => ch ≠ '.'⟩

/-- The error message thrown by `validateDependencies`. -/
def depErrMsg (pname requiredPlugin : String) : String :=
  "Plugin \x27" ++ pname ++ "\x27 requires \x27" ++ requiredPlugin ++
    "\x27 but it is not enabled. Add " ++ requiredPlugin ++
    ": \x7b...\x7d to your options."

/-- The error message thrown by `checkConflicts`. -/
def conflictErrMsg (pname conflictName : String) : String :=
  "Plugin \x27" ++ pname ++ "\x27 conflicts with \x27" ++ conflictName ++
    "\x27. You cannot use both plugins simultaneously."

/-- Inner `forEach` of `validateDependencies`: walk one plugin's `requires`
list and throw on the first entry whose name-before-the-dot is not active. -/
def validatePluginRequires (activeNames : List String) (pname : String) :
    List String → Except String Unit
  | [] => Except.ok ()
  | required :: rest =>
    let requiredPlugin := firstComponent required
    if requiredPlugin ∈ activeNames then
      validatePluginRequires activeNames pname rest
    else
      Except.error (depErrMsg pname requiredPlugin)

/-- Outer `forEach` of `validateDependencies`. -/
def validateDependenciesAux (activeNames : List String) :
    List AnimationPlugin → Except String Unit
  | [] => Except.ok ()
  | p :: rest =>
    match validatePluginRequires activeNames p.name p.requires with
    | Except.ok _ => validateDependenciesAux activeNames rest
    | Except.error e => Except.error e

/-- `AnimationPluginRegistry.validateDependencies`: every active plugin's
hard requirements must name (by their part before the first `.`) an active
plugin; the first violation throws. -/
def validateDependencies (activePlugins : List AnimationPlugin) :
    Except String Unit :=
  validateDependenciesAux (activePlugins.map AnimationPlugin.name) activePlugins

/-- Inner `forEach` of `checkConflicts`. -/
def checkPluginConflicts (activeNames : List String) (pname : String) :
    List String → Except String Unit
  | [] => Except.ok ()
  | conflictName :: rest =>
    if conflictName ∈ activeNames then
      Except.error (conflictErrMsg pname conflictName)
    else
      checkPluginConflicts activeNames pname rest

/-- Outer `forEach` of `checkConflicts`. -/
def checkConflictsAux (activeNames : List String) :
    List AnimationPlugin → Except String Unit
  | [] => Except.ok ()
  | p :: rest =>
    match checkPluginConflicts activeNames p.name p.conflicts with
    | Except.ok _ => checkConflictsAux activeNames rest
    | Except.error e => Except.error e

/-- `AnimationPluginRegistry.checkConflicts`: no active plugin may list an
active plugin name in its `conflicts`. -/
def checkConflicts (activePlugins : List AnimationPlugin) :
    Except String Unit :=
  checkConflictsAux (activePlugins.map AnimationPlugin.name) activePlugins

/-! ### Priority ordering -/

/-- Setup priority with its default: `plugin.priority ?? 50`. -/
def pkey (p : AnimationPlugin) : ℤ := p.priority.getD 50

/-- Cleanup priority with its defaults:
`plugin.cleanupPriority ?? plugin.priority ?? 50`. -/
def ckey (p : AnimationPlugin) : ℤ := p.cleanupPriority.getD (p.priority.getD 50)

/-- `AnimationPluginRegistry.sortByPriority`: stable sort, high priority
first (`(a, b) => priorityB - priorityA` under ECMAScript's stable sort). -/
def sortByPriority (plugins : List AnimationPlugin) : List AnimationPlugin :=
  List.insertionSort (fun a b => pkey b ≤ pkey a) plugins

/-- `AnimationPluginRegistry.getCleanupOrder`: first `sortByPriority`, then
a second stable sort ascending by `cleanupPriority ?? priority ?? 50`. -/
def getCleanupOrder (plugins : List AnimationPlugin) : List AnimationPlugin :=
  List.insertionSort (fun a b => ckey a ≤ ckey b) (sortByPriority plugins)

/-! ### setupPlugins

`setupPlugins` computes the active set, validates dependencies, then
conflicts, sorts by priority and only then invokes each plugin's `setup` in
order.  A thrown validation error aborts before the setup loop, so the
returned pair carries the thrown message (if any) together with the names
of the plugins whose `setup` actually ran, in invocation order. -/

/-- `AnimationPluginRegistry.setupPlugins`, with the list of executed
`setup` calls made explicit: `(some message, ran)` models a throw after the
setups in `ran` had run, `(none, ran)` a successful initialization. -/
def setupPluginsRun (registry : List AnimationPlugin) (options : Options) :
    Option String × List String :=
  let activePlugins := getActivePlugins registry options
  match validateDependencies activePlugins with
  | Except.error e => (some e, [])
  | Except.ok _ =>
    match checkConflicts activePlugins with
    | Except.error e => (some e, [])
    | Except.ok _ =>
      (none, (sortByPriority activePlugins).map AnimationPlugin.name)

/-! ### Statement helpers for the validation claims -/

/-- Some active module has a hard requirement whose plugin name (the part
before the first `.`) is not active. -/
abbrev unmetDependencyExists (active : List AnimationPlugin) : Prop :=
  ∃ p ∈ active, ∃ r ∈ p.requires,
    firstComponent r ∉ active.map AnimationPlugin.name

/-- Some active module declares a conflict with an active module name. -/
abbrev activeConflictExists (active : List AnimationPlugin) : Prop :=
  ∃ p ∈ active, ∃ c ∈ p.conflicts, c ∈ active.map AnimationPlugin.name

/-- The error message mentions the given module name verbatim. -/
def messageNames (msg moduleName : String) : Prop :=
  ∃ a b, msg = a ++ moduleName ++ b

/-! ### Stagger delays (`src/staggerDelays.ts`)

`calculateStaggerDelays` is pure float arithmetic; it is embedded over the
exact reals (`Math.sqrt` becomes `Real.sqrt`, which forces the definition
to be `noncomputable`; every value the claims touch is settled by exact
real reasoning, where the float computation agrees). -/

/-- Options of `calculateStaggerDelays` after the destructuring defaults
`from = 'start'`, `ease = 'linear'` are applied (`from` is a Lean keyword,
hence the field name `from'`). -/
structure UseAnimationStaggerOptions where
  delay : ℝ
  from' : String
  ease : String
  grid : Option (ℕ × ℕ)

/-- `calculateStaggerDelays(count, options)` from `src/staggerDelays.ts`:
grid staggers use Euclidean distance from `(cols/2, rows/2)` for
`'center'`, Manhattan-style sums for `'end'`/`'start'`; linear staggers use
the position `i`, `count - 1 - i`, or `Math.abs(i - count / 2)`, with an
optional easing rescale `easedT * delay * count` for non-linear easings. -/
noncomputable def calculateStaggerDelays (count : ℕ)
    (options : UseAnimationStaggerOptions) : List ℝ :=
  match options.grid with
  | some (cols, rows) =>
    (List.range count).map fun i =>
      let col : ℝ := ((i % cols : ℕ) : ℝ)
      let row : ℝ := ((i / cols : ℕ) : ℝ)
      let distance : ℝ :=
        if options.from' = "center" then
          Real.sqrt ((col - (cols : ℝ) / 2) ^ 2 + (row - (rows : ℝ) / 2) ^ 2)
        else if options.from' = "end" then
          ((cols : ℝ) - col) + ((rows : ℝ) - row)
        else
          col + row
      distance * options.delay
  | none =>
    (List.range count).map fun i =>
      let position : ℝ :=
        if options.from' = "start" then (i : ℝ)
        else if options.from' = "end" then (count : ℝ) - 1 - (i : ℝ)
        else |(i : ℝ) - (count : ℝ) / 2|
      let normalizedDelay := position * options.delay
      if options.ease ≠ "linear" then
        let denom : ℝ := if (count : ℝ) - 1 = 0 then 1 else (count : ℝ) - 1
        let t := position / denom
        let easedT :=
          if options.ease = "ease-in" then t * t
          else if options.ease = "ease-out" then 1 - (1 - t) ^ 2
          else if options.ease.startsWith "cubic-bezier" then t
          else t
        easedT * options.delay * (count : ℝ)
      else normalizedDelay

/-! ### Shared clock (`RafCoordinator`)

The coordinator keeps a `Map` of subscriber tokens and at most one
outstanding `requestAnimationFrame` handle.  The model tracks, next to the
coordinator's own fields, the scheduler's view: the list of outstanding
frame-request handles (`raf` appends a fresh handle, `caf` removes one). -/

/-- State of the `RafCoordinator` plus its host frame scheduler. -/
structure RafState where
  callbacks : List ℕ
  rafId : Option ℕ
  nextToken : ℕ
  nextHandle : ℕ
  outstanding : List ℕ
deriving DecidableEq

/-- The initial coordinator: no subscribers, no outstanding request. -/
def rafInit : RafState :=
  { callbacks := [], rafId := none, nextToken := 0, nextHandle := 0,
    outstanding := [] }

/-- `ensureLoop()`: if no frame request is outstanding, issue one. -/
def ensureLoop (s : RafState) : RafState :=
  match s.rafId with
  | some _ => s
  | none =>
    { s with rafId := some s.nextHandle,
             outstanding := s.outstanding ++ [s.nextHandle],
             nextHandle := s.nextHandle + 1 }

/-- `add(callback)`: register a fresh token, then `ensureLoop()`. -/
def rafAdd (s : RafState) : RafState :=
  ensureLoop { s with callbacks := s.callbacks ++ [s.nextToken],
                      nextToken := s.nextToken + 1 }

/-- `remove(id)`: drop the token; when the last subscriber leaves and a
request is outstanding, cancel it (`caf`) and clear `rafId`. -/
def rafRemove (t : ℕ) (s : RafState) : RafState :=
  if t ∈ s.callbacks then
    let s' := { s with callbacks := s.callbacks.erase t }
    if s'.callbacks.isEmpty then
      match s'.rafId with
      | some h =>
        { s' with rafId := none, outstanding := s'.outstanding.erase h }
      | none => s'
    else s'
  else s

/-- One firing of the scheduled `step` callback: the fired request is no
longer outstanding; after invoking the subscribers, `step` re-requests a
frame when subscribers remain, else clears `rafId`. -/
def rafFrame (s : RafState) : RafState :=
  match s.rafId with
  | none => s
  | some h =>
    let s' := { s with outstanding := s.outstanding.erase h }
    if s'.callbacks.isEmpty then { s' with rafId := none }
    else
      { s' with rafId := some s'.nextHandle,
                outstanding := s'.outstanding ++ [s'.nextHandle],
                nextHandle := s'.nextHandle + 1 }

/-- Externally observable coordinator events: a subscription, an
unsubscription of a given token, or a frame firing. -/
inductive RafOp where
  | add
  | remove (t : ℕ)
  | frame
deriving DecidableEq

/-- Apply one coordinator event. -/
def rafStep (s : RafState) : RafOp → RafState
  | RafOp.add => rafAdd s
  | RafOp.remove t => rafRemove t s
  | RafOp.frame => rafFrame s

/-- Run a sequence of coordinator events from the initial state. -/
def rafRun (ops : List RafOp) : RafState :=
  ops.foldl rafStep rafInit

/-! ### Mid-tick subscription (`step`'s `forEach` over a live `Map`)

`step` runs `this.callbacks.forEach(cb => cb(timestamp))`.  Per ECMA-262,
`Map.prototype.forEach` visits entries appended during the iteration, in
insertion order.  The tick is modelled as a worklist: each subscriber's
callback is either inert or subscribes one further callback (via
`coordinator.add`), which the same `forEach` pass then also visits. -/

/-- What a subscriber's callback does when invoked during a tick. -/
inductive Cb where
  | noop
  | addCb (c : Cb)
deriving DecidableEq

/-- Structural size of a callback, for termination of the tick. -/
def cbSize : Cb → ℕ
  | Cb.noop => 1
  | Cb.addCb c => 1 + cbSize c

/-- Total size of a tick worklist. -/
def queueSize (l : List (ℕ × Cb)) : ℕ :=
  (l.map fun p => cbSize p.2).sum

/-- One frame tick of the coordinator: process the subscriber `Map` in
insertion order; a callback that subscribes appends the new entry to the
end of the `Map`, and the ongoing `forEach` visits it too.  Returns the
tokens invoked during this tick, in invocation order (`n` is the next
fresh token). -/
def runTick : List (ℕ × Cb) → ℕ → List ℕ
  | [], _ => []
  | (t, Cb.noop) :: rest, n => t :: runTick rest n
  | (t, Cb.addCb c) :: rest, n => t :: runTick (rest ++ [(n, c)]) (n + 1)
termination_by l _ => queueSize l
decreasing_by
  · simp [queueSize, cbSize]
  · simp [queueSize, cbSize, List.map_append]
    omega

/-! ### Orchestrator session (`useAnimation.ts`)

The session state relevant to manual/automatic arbitration: the
`isPlaying`/`isPaused` flags, the tri-state `manualOverride` local, and the
current value of the declarative `playWhen` gate (`none` when the option is
not configured).  `runPlay`, `stop`, `pause`, `resume`, `playAuto` and the
`playWhen` watcher body are transcribed from `useAnimation.ts`; the
asynchronous module fan-out does not touch these fields and is elided. -/

/-- The origin of a play/stop request (`'manual' | 'auto'`). -/
inductive Reason where
  | manual
  | auto
deriving DecidableEq

/-- The manual-override tri-state is `Option MOverride` (`null` = `none`). -/
inductive MOverride where
  | play
  | stop
deriving DecidableEq

/-- Orchestrator session state. -/
structure OrchState where
  isPlaying : Bool
  isPaused : Bool
  manualOverride : Option MOverride
  playWhen : Option Bool
deriving DecidableEq

/-- A fresh session: not playing, not paused, no override. -/
def orchInit : OrchState :=
  { isPlaying := false, isPaused := false, manualOverride := none,
    playWhen := none }

/-- `runPlay(reason)`: an automatic play is suppressed while the override is
`'stop'`; an already-playing session is left alone (note that this early
return happens before the override is recorded); a manual play records the
override, then the flags flip before the async hook/module fan-out. -/
def runPlay (reason : Reason) (s : OrchState) : OrchState :=
  if reason = Reason.auto ∧ s.manualOverride = some MOverride.stop then s
  else if s.isPlaying then s
  else
    { s with
      manualOverride :=
        if reason = Reason.manual then some MOverride.play
        else s.manualOverride,
      isPlaying := true, isPaused := false }

/-- `stop(reason)`: an automatic stop is suppressed while the override is
`'play'`; a session that is neither playing nor paused is left alone (again
before the override is recorded); otherwise the override is recorded for a
manual stop and both flags clear. -/
def orchStop (reason : Reason) (s : OrchState) : OrchState :=
  if reason = Reason.auto ∧ s.manualOverride = some MOverride.play then s
  else if ¬s.isPlaying ∧ ¬s.isPaused then s
  else
    { s with
      manualOverride :=
        if reason = Reason.manual then some MOverride.stop
        else s.manualOverride,
      isPlaying := false, isPaused := false }

/-- `pause()`: no-op unless playing and not yet paused. -/
def orchPause (s : OrchState) : OrchState :=
  if ¬s.isPlaying ∨ s.isPaused then s else { s with isPaused := true }

/-- `resume()`: no-op unless paused. -/
def orchResume (s : OrchState) : OrchState :=
  if ¬s.isPaused then s else { s with isPaused := false }

/-- `playAuto` (the `orchestrator.play` callback handed to plugins): gated
on the declarative `playWhen` option when it is configured, then an
automatic `runPlay`. -/
def playAuto (s : OrchState) : OrchState :=
  if s.playWhen = some false then s else runPlay Reason.auto s

/-- The `playWhen` watcher body: on a change of the gate the manual
override expires, then the session auto-plays (when idle) or auto-stops
(when playing) according to the new value. -/
def playWhenChange (b : Bool) (s : OrchState) : OrchState :=
  let s' := { s with playWhen := some b, manualOverride := none }
  if b then
    if ¬s'.isPlaying ∧ ¬s'.isPaused then runPlay Reason.auto s' else s'
  else
    if s'.isPlaying then orchStop Reason.auto s' else s'

/-- Session-level events: explicit caller actions, automatic triggers
(fired by plugins through the seeded `orchestrator.play`/`orchestrator.stop`
callbacks), and changes of the declarative `playWhen` gate. -/
inductive OrchEvent where
  | manualPlay
  | autoPlay
  | manualStop
  | autoStop
  | pauseEvent
  | resumeEvent
  | playWhenSet (b : Bool)
deriving DecidableEq

/-- Apply one session event. -/
def orchStepEvent (s : OrchState) : OrchEvent → OrchState
  | OrchEvent.manualPlay => runPlay Reason.manual s
  | OrchEvent.autoPlay => playAuto s
  | OrchEvent.manualStop => orchStop Reason.manual s
  | OrchEvent.autoStop => orchStop Reason.auto s
  | OrchEvent.pauseEvent => orchPause s
  | OrchEvent.resumeEvent => orchResume s
  | OrchEvent.playWhenSet b => playWhenChange b s

/-- Run a sequence of session events. -/
def orchRun (s : OrchState) (ops : List OrchEvent) : OrchState :=
  ops.foldl orchStepEvent s

/-- An event of automatic origin (a visibility/scroll trigger calling the
seeded callbacks), as opposed to an explicit caller action or a
`playWhen` reset. -/
def isAutoEvent : OrchEvent → Bool
  | OrchEvent.autoPlay => true
  | OrchEvent.autoStop => true
  | _ => false

/-! ### Session cleanup (`useAnimation.ts`, `cleanup`)

The fields `cleanup()` touches, with side effects recorded as traces: each
stop of a registered watcher, each invocation of a module system's
`cleanup()`, and each run of an extra cleanup handler.  `cleanup()` resets
the flags, stops all watchers, invokes every cleanable system's `cleanup`,
runs the `cleanupHandlers` and truncates that list (`length = 0`) — the
watcher and system lists are never truncated.  (The optional `stateName`
consumer bookkeeping is not configured in this model.) -/

/-- Session state as seen by `cleanup()`. -/
structure SessionCleanupState where
  isPlaying : Bool
  isPaused : Bool
  pluginWatchers : List ℕ
  localWatchers : List ℕ
  cleanableSystems : List String
  cleanupHandlers : List ℕ
  watcherStopCalls : List ℕ
  moduleCleanupCalls : List String
  handlerCalls : List ℕ
deriving DecidableEq

/-- The `cleanup()` closure of `useAnimation`. -/
def sessionCleanup (s : SessionCleanupState) : SessionCleanupState :=
  { s with
    isPlaying := false
    isPaused := false
    watcherStopCalls := s.watcherStopCalls ++ s.pluginWatchers ++ s.localWatchers
    moduleCleanupCalls := s.moduleCleanupCalls ++ s.cleanableSystems
    handlerCalls := s.handlerCalls ++ s.cleanupHandlers
    cleanupHandlers := [] }

/-- A just-initialized session with one cleanable module system and no
registered watchers or extra handlers. -/
def session0 : SessionCleanupState :=
  { isPlaying := false, isPaused := false, pluginWatchers := [],
    localWatchers := [], cleanableSystems := ["webAnimation"],
    cleanupHandlers := [], watcherStopCalls := [],
    moduleCleanupCalls := [], handlerCalls := [] }

/-! ## Claim theorems -/

/-! ### C6 / C7 — stagger delay values -/

/-- `{ delay: 100, from: 'start' }` (linear, no grid). -/
def startOpts : UseAnimationStaggerOptions :=
  { delay := 100, from' := "start", ease := "linear", grid := none }

/-- `{ delay: 100, from: 'end' }` (linear, no grid). -/
def endOpts : UseAnimationStaggerOptions :=
  { delay := 100, from' := "end", ease := "linear", grid := none }

/-- `{ delay: 100, from: 'center' }` (linear, no grid). -/
def centerOpts : UseAnimationStaggerOptions :=
  { delay := 100, from' := "center", ease := "linear", grid := none }

/-- `{ delay: 100, from: 'center', grid: [2, 2] }`. -/
def gridCenterOpts : UseAnimationStaggerOptions :=
  { delay := 100, from' := "center", ease := "linear", grid := some (2, 2) }

/-- The delays computed for 4 linear elements from the center. -/
theorem stagger_center_values :
    calculateStaggerDelays 4 centerOpts = [200, 100, 0, 100] := by
  simp [calculateStaggerDelays, centerOpts, List.range_succ]
  norm_num [abs_of_nonneg, abs_of_nonpos]

/-- Claim C6 is false as stated: with `from: 'center'` and 4 elements the
code measures distance from index `count / 2 = 2` (not from the midpoint
`1.5`), producing `[200, 100, 0, 100]`, so `delays[0] ≠ delays[3]` and the
list is not symmetric around the midpoint. -/
theorem stagger_center_asymmetric_counterexample :
    (calculateStaggerDelays 4 centerOpts).getD 0 0 ≠
      (calculateStaggerDelays 4 centerOpts).getD 3 0 := by
  rw [stagger_center_values]
  norm_num

/-- Claim C6 (amended): with linear easing and no grid,
`calculateStaggerDelays` returns `[0, 100, 200]` for 3 elements with
`delay = 100` and `from: 'start'`, and `[200, 100, 0]` for `from: 'end'`;
for 4 elements with `from: 'center'` it returns `[200, 100, 0, 100]` —
the distances are measured from index `count / 2`, so the delays of the
two elements equidistant from index 2 coincide (`delays[1] = delays[3]`),
but the list is not symmetric under `i ↦ count - 1 - i`. -/
theorem stagger_linear_delays :
    calculateStaggerDelays 3 startOpts = [0, 100, 200] ∧
    calculateStaggerDelays 3 endOpts = [200, 100, 0] ∧
    calculateStaggerDelays 4 centerOpts = [200, 100, 0, 100] := by
  refine ⟨?_, ?_, stagger_center_values⟩
  · simp [calculateStaggerDelays, startOpts, List.range_succ]
    norm_num
  · simp [calculateStaggerDelays, endOpts, List.range_succ]
    norm_num

/-- The delays computed for a 2×2 grid from the center. -/
theorem stagger_grid_center_values :
    calculateStaggerDelays 4 gridCenterOpts = [Real.sqrt 2 * 100, 100, 100, 0] := by
  simp [calculateStaggerDelays, gridCenterOpts, List.range_succ]
  norm_num [Real.sqrt_one, Real.sqrt_zero]

/-- Claim C7 is false as stated: the grid-center reference point is
`(cols / 2, rows / 2) = (1, 1)`, which coincides with the cell at index 3,
so that element's delay is `0` while the element at `(0, 0)` gets
`√2 · 100 ≠ 0`: the two corner delays are not equal. -/
theorem stagger_grid_center_counterexample :
    (calculateStaggerDelays 4 gridCenterOpts).getD 0 0 ≠
      (calculateStaggerDelays 4 gridCenterOpts).getD 3 0 := by
  rw [stagger_grid_center_values]
  simp

/-- Claim C7 (amended): `calculateStaggerDelays` with `grid = [2, 2]`,
`from: 'center'`, `delay = 100` returns `[√2·100, 100, 100, 0]`: the two
elements at `(1, 0)` and `(0, 1)` (indices 1 and 2) receive equal delays,
the element at `(1, 1)` — which coincides with the reference point
`(cols/2, rows/2)` — receives `0`, the element at `(0, 0)` receives
`√2·100`, and all four delays are non-negative. -/
theorem stagger_grid_center_delays :
    calculateStaggerDelays 4 gridCenterOpts = [Real.sqrt 2 * 100, 100, 100, 0] ∧
    (calculateStaggerDelays 4 gridCenterOpts).getD 1 0 =
      (calculateStaggerDelays 4 gridCenterOpts).getD 2 0 ∧
    ∀ d ∈ calculateStaggerDelays 4 gridCenterOpts, 0 ≤ d := by
  refine ⟨stagger_grid_center_values, ?_, ?_⟩
  · rw [stagger_grid_center_values]
    simp [List.getD]
  · rw [stagger_grid_center_values]
    intro d hd
    simp only [List.mem_cons, List.not_mem_nil, or_false] at hd
    rcases hd with rfl | rfl | rfl | rfl
    · positivity
    · norm_num
    · norm_num
    · norm_num

/-! ### C3 — manual-override arbitration -/

/-- A session whose last recorded manual action is an explicit play and
which is currently playing ignores every automatic trigger. -/
theorem autoEvent_fixed_of_play (s : OrchState)
    (hov : s.manualOverride = some MOverride.play) (hp : s.isPlaying = true)
    (e : OrchEvent) (he : isAutoEvent e = true) : orchStepEvent s e = s := by
  cases e
  case autoPlay =>
    simp only [orchStepEvent, playAuto]
    split
    · rfl
    · simp [runPlay, hov, hp]
  case autoStop =>
    simp [orchStepEvent, orchStop, hov]
  all_goals simp [isAutoEvent] at he

/-- A session whose last recorded manual action is an explicit stop and
which is idle ignores every automatic trigger. -/
theorem autoEvent_fixed_of_stop (s : OrchState)
    (hov : s.manualOverride = some MOverride.stop) (hp : s.isPlaying = false)
    (hq : s.isPaused = false) (e : OrchEvent) (he : isAutoEvent e = true) :
    orchStepEvent s e = s := by
  cases e
  case autoPlay =>
    simp only [orchStepEvent, playAuto]
    split
    · rfl
    · simp [runPlay, hov]
  case autoStop =>
    simp [orchStepEvent, orchStop, hov, hp, hq]
  all_goals simp [isAutoEvent] at he

/-- Running any sequence of events that individually fix the state leaves
the state unchanged. -/
theorem orchRun_fixed (s : OrchState) (ops : List OrchEvent)
    (hfix : ∀ e ∈ ops, orchStepEvent s e = s) : orchRun s ops = s := by
  induction ops with
  | nil => rfl
  | cons e rest ih =>
    have h1 := hfix e (List.mem_cons_self e rest)
    show List.foldl orchStepEvent (orchStepEvent s e) rest = s
    rw [h1]
    exact ih fun x hx => hfix x (List.mem_cons_of_mem e hx)

/-- Claim C3 is false as stated: when a session is already playing because
an automatic trigger started it, a subsequent explicit `play()` returns at
the already-playing early-out *before* recording the manual override, so a
later automatic stop is honored and the session does not remain playing. -/
theorem manual_play_no_override_counterexample :
    (orchRun orchInit [OrchEvent.autoPlay, OrchEvent.manualPlay]).isPlaying = true ∧
    (orchRun orchInit
        [OrchEvent.autoPlay, OrchEvent.manualPlay, OrchEvent.autoStop]).isPlaying
      = false := by
  decide

/-- Claim C3 (amended): after an explicit `play()` invoked while the
session is *not already playing*, every sequence of automatic-origin
triggers (auto play or auto stop) is a no-op and the session remains
playing; and after an explicit `stop()` of a playing or paused session,
every sequence of automatic-origin triggers is a no-op and the session
remains stopped — in both cases until a later explicit call or a
`playWhen` change resets the override.  (The claim's play-side fails when
the session is already playing from an automatic start: the early return
precedes the recording of the override.) -/
theorem manual_override_arbitration (s : OrchState) (ops : List OrchEvent)
    (hauto : ∀ e ∈ ops, isAutoEvent e = true) :
    (s.isPlaying = false →
      orchRun (runPlay Reason.manual s) ops = runPlay Reason.manual s ∧
      (runPlay Reason.manual s).isPlaying = true) ∧
    (s.isPlaying = true ∨ s.isPaused = true →
      orchRun (orchStop Reason.manual s) ops = orchStop Reason.manual s ∧
      (orchStop Reason.manual s).isPlaying = false ∧
      (orchStop Reason.manual s).isPaused = false) := by
  constructor
  · intro hnp
    have hs : runPlay Reason.manual s =
        { s with manualOverride := some MOverride.play,
                 isPlaying := true, isPaused := false } := by
      simp [runPlay, hnp]
    rw [hs]
    refine ⟨orchRun_fixed _ ops fun e he => ?_, rfl⟩
    exact autoEvent_fixed_of_play _ rfl rfl e (hauto e he)
  · intro hps
    have hs : orchStop Reason.manual s =
        { s with manualOverride := some MOverride.stop,
                 isPlaying := false, isPaused := false } := by
      rcases hps with h | h <;> simp [orchStop, h]
    rw [hs]
    refine ⟨orchRun_fixed _ ops fun e he => ?_, rfl, rfl⟩
    exact autoEvent_fixed_of_stop _ rfl rfl rfl e (hauto e he)

/-- Witness for `manual_override_arbitration` at a fresh session and the
automatic trigger sequence auto-stop-then-auto-play. -/
theorem manual_override_arbitration_witness :
    orchRun (runPlay Reason.manual orchInit)
        [OrchEvent.autoStop, OrchEvent.autoPlay] =
      runPlay Reason.manual orchInit ∧
    (runPlay Reason.manual orchInit).isPlaying = true :=
  (manual_override_arbitration orchInit [OrchEvent.autoStop, OrchEvent.autoPlay]
    (by decide)).1 (by decide)

/-! ### C5 — cleanup idempotence -/

/-- Claim C5 is false as stated: calling `cleanup()` twice on a session
with one cleanable module system invokes that module's `cleanup` twice —
`cleanup()` never truncates `cleanableSystems` and has no ran-already
guard, so the second call repeats every module cleanup. -/
theorem cleanup_twice_counterexample :
    ((sessionCleanup (sessionCleanup session0)).moduleCleanupCalls.count
      "webAnimation") = 2 := by
  decide

/-- Claim C5 (amended): `cleanup()` is not idempotent for module cleanups:
two consecutive calls invoke every cleanable module's `cleanup` exactly
twice (once per call) and stop every registered watcher twice; only the
extra `cleanupHandlers` — the one list `cleanup()` truncates — run exactly
once in total. -/
theorem cleanup_twice_effects (s : SessionCleanupState) :
    (sessionCleanup (sessionCleanup s)).moduleCleanupCalls =
      s.moduleCleanupCalls ++ s.cleanableSystems ++ s.cleanableSystems ∧
    (sessionCleanup (sessionCleanup s)).handlerCalls =
      s.handlerCalls ++ s.cleanupHandlers ∧
    (sessionCleanup (sessionCleanup s)).watcherStopCalls =
      s.watcherStopCalls ++ (s.pluginWatchers ++ s.localWatchers) ++
        (s.pluginWatchers ++ s.localWatchers) := by
  simp [sessionCleanup]

/-! ### C4 — mid-tick subscription -/

/-- Every subscriber that enters the tick's worklist — the initial `Map`
entries and every entry appended mid-tick — is invoked during that tick. -/
theorem runTick_invokes_queued (l : List (ℕ × Cb)) (n : ℕ) :
    ∀ p ∈ l, p.1 ∈ runTick l n := by
  induction l, n using runTick.induct with
  | case1 n =>
    intro p hp
    simp at hp
  | case2 t rest n ih =>
    intro p hp
    rcases List.mem_cons.mp hp with rfl | hp'
    · simp [runTick]
    · rw [show runTick ((t, Cb.noop) :: rest) n = t :: runTick rest n from by
        simp [runTick]]
      exact List.mem_cons_of_mem t (ih p hp')
  | case3 t c rest n ih =>
    intro p hp
    rcases List.mem_cons.mp hp with rfl | hp'
    · simp [runTick]
    · rw [show runTick ((t, Cb.addCb c) :: rest) n =
          t :: runTick (rest ++ [(n, c)]) (n + 1) from by simp [runTick]]
      exact List.mem_cons_of_mem t (ih p (List.mem_append_left _ hp'))

/-- Claim C4 is false as stated: in a tick whose only initial subscriber
(token 0) subscribes a new callback (which receives token 1), the tick's
invocation list is `[0, 1]` — the subscriber added mid-tick *is* invoked
during the same tick, because `Map.prototype.forEach` visits entries
appended during the iteration. -/
theorem midtick_subscriber_same_tick_counterexample :
    runTick [(0, Cb.addCb Cb.noop)] 1 = [0, 1] := by
  simp [runTick]

/-- Claim C4 (amended): a subscriber added during a frame tick from within
another subscriber's callback *is* invoked during that same tick: the new
entry is appended to the subscriber `Map` and the ongoing `forEach` pass
reaches it before the tick ends. -/
theorem midtick_subscriber_invoked_same_tick (t n : ℕ) (c : Cb)
    (rest : List (ℕ × Cb)) :
    n ∈ runTick ((t, Cb.addCb c) :: rest) n := by
  have h := runTick_invokes_queued (rest ++ [(n, c)]) (n + 1) (n, c)
    (List.mem_append_right rest (List.mem_singleton_self _))
  rw [show runTick ((t, Cb.addCb c) :: rest) n =
      t :: runTick (rest ++ [(n, c)]) (n + 1) from by simp [runTick]]
  exact List.mem_cons_of_mem t h

/-! ### C2 — shared clock request invariant -/

/-- Coordinator invariant: the outstanding scheduler requests are exactly
the one named by `rafId` (none when `rafId` is null), and `rafId` is null
exactly when no subscriber exists. -/
def RafInv (s : RafState) : Prop :=
  (∀ h, s.rafId = some h → s.outstanding = [h]) ∧
  (s.rafId = none → s.outstanding = []) ∧
  (s.callbacks = [] ↔ s.rafId = none)

/-- Each coordinator event preserves the invariant. -/
theorem rafStep_inv (s : RafState) (op : RafOp) (hs : RafInv s) :
    RafInv (rafStep s op) := by
  obtain ⟨cbs, rid, ntok, nh, outs⟩ := s
  obtain ⟨h1, h2, h3⟩ := hs
  simp only at h1 h2 h3
  cases op with
  | add =>
    cases rid with
    | some h =>
      simpa [rafStep, rafAdd, ensureLoop, RafInv] using h1 h rfl
    | none =>
      have houts := h2 rfl
      subst houts
      simp [rafStep, rafAdd, ensureLoop, RafInv]
  | remove t =>
    by_cases hmem : t ∈ cbs
    · cases hemp : (cbs.erase t).isEmpty with
      | true =>
        cases rid with
        | some h =>
          have houts := h1 h rfl
          subst houts
          have hemp' : cbs.erase t = [] := by
            simpa [List.isEmpty_iff] using hemp
          simp [rafStep, rafRemove, hmem, hemp, RafInv, hemp']
        | none =>
          exfalso
          have hc := h3.mpr rfl
          subst hc
          simp at hmem
      | false =>
        have hrid : rid ≠ none := by
          intro hn
          have hc := h3.mpr hn
          subst hc
          simp at hmem
        cases rid with
        | none => exact absurd rfl hrid
        | some h =>
          have hemp' : ¬(cbs.erase t = []) := by
            simpa [List.isEmpty_iff] using hemp
          simp [rafStep, rafRemove, hmem, hemp, RafInv, hemp']
          exact h1 h rfl
    · simp [rafStep, rafRemove, hmem, RafInv]
      exact ⟨h1, h2, h3⟩
  | frame =>
    cases rid with
    | none =>
      simp [rafStep, rafFrame, RafInv]
      exact ⟨h2 rfl, h3.mpr rfl⟩
    | some h =>
      have houts := h1 h rfl
      subst houts
      cases hemp : cbs.isEmpty with
      | true =>
        have hemp' : cbs = [] := by simpa [List.isEmpty_iff] using hemp
        simp [rafStep, rafFrame, RafInv, hemp, hemp']
      | false =>
        have hemp' : ¬(cbs = []) := by simpa [List.isEmpty_iff] using hemp
        simp [rafStep, rafFrame, RafInv, hemp, hemp']

/-- The fresh coordinator satisfies the invariant. -/
theorem rafInit_inv : RafInv rafInit := by
  refine ⟨fun h hh => ?_, fun _ => rfl, by simp [rafInit]⟩
  simp [rafInit] at hh

/-- The invariant holds after any sequence of coordinator events. -/
theorem rafRun_inv (ops : List RafOp) : RafInv (rafRun ops) := by
  suffices hgen : ∀ s, RafInv s → RafInv (ops.foldl rafStep s) from
    hgen rafInit rafInit_inv
  induction ops with
  | nil => exact fun s hs => hs
  | cons op rest ih =>
    intro s hs
    exact ih (rafStep s op) (rafStep_inv s op hs)

/-- Claim C2: for every sequence of subscribe/unsubscribe/frame events on
the shared clock, the number of outstanding frame requests is exactly one
while at least one subscriber exists and exactly zero when the subscriber
count is zero — so the request is cancelled when the last subscriber
leaves, and (as the same equation applied after a further `add`) a new
subscription after reaching zero restarts the loop with exactly one
request. -/
theorem rafCoordinator_single_outstanding_request (ops : List RafOp) :
    (rafRun ops).outstanding.length =
      (if (rafRun ops).callbacks.isEmpty then 0 else 1) := by
  obtain ⟨h1, h2, h3⟩ := rafRun_inv ops
  cases hid : (rafRun ops).rafId with
  | none =>
    rw [h2 hid]
    have hc : (rafRun ops).callbacks = [] := h3.mpr hid
    simp [hc]
  | some h =>
    rw [h1 h hid]
    have hc : ¬((rafRun ops).callbacks = []) := by
      intro hcb
      rw [h3.mp hcb] at hid
      cases hid
    simp [List.isEmpty_iff, hc]

/-! ### C8 — cleanup ordering -/

/-- A minimal plugin descriptor for concrete registry scenarios. -/
def mkPlugin (name : String) (priority cleanupPriority : Option ℤ) :
    AnimationPlugin :=
  { name := name, version := "1.0.0", priority := priority,
    cleanupPriority := cleanupPriority, optionsKey := none, requires := [],
    conflicts := [], shouldActivate := none }

/-- Two plugins with the same (default) priority, in registration order. -/
def pluginA : AnimationPlugin := mkPlugin "a" none none

/-- See `pluginA`. -/
def pluginB : AnimationPlugin := mkPlugin "b" none none

/-- Claim C8 is false as stated for equal priorities: both stable sorts
keep two equal-priority plugins in registration order, so the cleanup
order coincides with the setup order `[a, b]` instead of being its exact
reverse `[b, a]`. -/
theorem cleanup_order_equal_priority_counterexample :
    (getCleanupOrder [pluginA, pluginB]).map AnimationPlugin.name = ["a", "b"] ∧
    ((sortByPriority [pluginA, pluginB]).reverse).map AnimationPlugin.name
      = ["b", "a"] ∧
    getCleanupOrder [pluginA, pluginB] ≠
      (sortByPriority [pluginA, pluginB]).reverse := by
  refine ⟨by decide, by decide, fun h => ?_⟩
  have hmap := congrArg (List.map AnimationPlugin.name) h
  simp [pluginA, pluginB, mkPlugin, getCleanupOrder, sortByPriority, ckey,
    pkey] at hmap

/-- Claim C8 (amended): `getCleanupOrder` returns the active modules
sorted ascending by cleanup-priority (`cleanupPriority ?? priority ?? 50`)
as a permutation of its input, and this is the exact reverse of the setup
order whenever no module overrides `cleanupPriority` *and* the priorities
are pairwise distinct.  Modules with equal priority keep their
registration order in both the setup and the cleanup order (both sorts are
stable), so for ties the cleanup order is *not* the reverse of setup. -/
theorem getCleanupOrder_sorted_reverse_of_setup
    (plugins : List AnimationPlugin)
    (hnone : ∀ p ∈ plugins, p.cleanupPriority = none)
    (hdist : plugins.Pairwise fun a b => pkey a ≠ pkey b) :
    List.Sorted (fun a b => ckey a ≤ ckey b) (getCleanupOrder plugins) ∧
    (getCleanupOrder plugins).Perm plugins ∧
    getCleanupOrder plugins = (sortByPriority plugins).reverse := by
  haveI hT1 : IsTotal AnimationPlugin (fun a b => ckey a ≤ ckey b) :=
    ⟨fun a b => le_total (ckey a) (ckey b)⟩
  haveI hT2 : IsTrans AnimationPlugin (fun a b => ckey a ≤ ckey b) :=
    ⟨fun _ _ _ => le_trans⟩
  haveI hT3 : IsTotal AnimationPlugin (fun a b => pkey b ≤ pkey a) :=
    ⟨fun a b => le_total (pkey b) (pkey a)⟩
  haveI hT4 : IsTrans AnimationPlugin (fun a b => pkey b ≤ pkey a) :=
    ⟨fun _ _ _ h1 h2 => le_trans h2 h1⟩
  have hsorted : List.Sorted (fun a b => ckey a ≤ ckey b)
      (getCleanupOrder plugins) :=
    List.sorted_insertionSort _ (sortByPriority plugins)
  have hclperm : (getCleanupOrder plugins).Perm (sortByPriority plugins) :=
    List.perm_insertionSort _ _
  have hmperm : (sortByPriority plugins).Perm plugins :=
    List.perm_insertionSort _ _
  have hperm : (getCleanupOrder plugins).Perm plugins := hclperm.trans hmperm
  refine ⟨hsorted, hperm, ?_⟩
  have hckey : ∀ p ∈ plugins, ckey p = pkey p := fun p hp => by
    simp [ckey, pkey, hnone p hp]
  -- distinctness transported to the sorted lists
  have hsymm : ∀ {x y : AnimationPlugin},
      pkey x ≠ pkey y → pkey y ≠ pkey x := fun h => h.symm
  have hdist_m : (sortByPriority plugins).Pairwise
      (fun a b => pkey a ≠ pkey b) := (hmperm.pairwise_iff hsymm).mpr hdist
  have hdist_cl : (getCleanupOrder plugins).Pairwise
      (fun a b => pkey a ≠ pkey b) := (hperm.pairwise_iff hsymm).mpr hdist
  -- the cleanup order is ascending-sorted by pkey
  have hsorted_p : List.Sorted (fun a b => pkey a ≤ pkey b)
      (getCleanupOrder plugins) := by
    refine hsorted.imp_of_mem fun ha hb hab => ?_
    rwa [hckey _ (hperm.mem_iff.mp ha), hckey _ (hperm.mem_iff.mp hb)] at hab
  have hstrict_cl : List.Sorted (fun a b => pkey a < pkey b)
      (getCleanupOrder plugins) :=
    (hsorted_p.and hdist_cl).imp fun hab => lt_of_le_of_ne hab.1 hab.2
  -- the reversed setup order is ascending-sorted by pkey as well
  have hsorted_m : List.Sorted (fun a b => pkey b ≤ pkey a)
      (sortByPriority plugins) := List.sorted_insertionSort _ plugins
  have hsorted_rev : List.Sorted (fun a b => pkey a ≤ pkey b)
      (sortByPriority plugins).reverse := List.pairwise_reverse.mpr hsorted_m
  have hdist_rev : (sortByPriority plugins).reverse.Pairwise
      (fun a b => pkey a ≠ pkey b) :=
    List.pairwise_reverse.mpr (hdist_m.imp fun hab => hab.symm)
  have hstrict_rev : List.Sorted (fun a b => pkey a < pkey b)
      (sortByPriority plugins).reverse :=
    (hsorted_rev.and hdist_rev).imp fun hab => lt_of_le_of_ne hab.1 hab.2
  -- two sorted permutations of each other agree
  haveI : IsAntisymm AnimationPlugin (fun a b => pkey a < pkey b) :=
    ⟨fun a b h1 h2 => absurd h2 (not_lt.mpr (le_of_lt h1))⟩
  exact List.eq_of_perm_of_sorted
    (hclperm.trans ((sortByPriority plugins).reverse_perm).symm)
    hstrict_cl hstrict_rev

/-- Plugins with distinct priorities, for the cleanup-order witness. -/
def pluginHigh : AnimationPlugin := mkPlugin "high" (some 100) none

/-- See `pluginHigh`. -/
def pluginLow : AnimationPlugin := mkPlugin "low" (some 10) none

/-- Witness for `getCleanupOrder_sorted_reverse_of_setup` at two plugins
with distinct priorities and no cleanup override. -/
theorem getCleanupOrder_sorted_reverse_of_setup_witness :
    getCleanupOrder [pluginHigh, pluginLow] =
      (sortByPriority [pluginHigh, pluginLow]).reverse :=
  (getCleanupOrder_sorted_reverse_of_setup [pluginHigh, pluginLow]
    (by decide) (by decide)).2.2

/-! ### C9 — default activation signal -/

/-- A plugin relying on the fallback activation test (no explicit
`shouldActivate`, no `optionsKey` override). -/
def pluginFade : AnimationPlugin := mkPlugin "fade" none none

/-- A configuration holding the falsy value `0` under the plugin's key. -/
def optsZero : Options := [("fade", JSValue.number 0)]

/-- Claim C9 is false as stated: the configuration value `0` under the
plugin's option key is falsy, yet the plugin *is* placed in the Activation
Set — `hasPluginOptions` only rejects `undefined`, `null` and `false`, and
returns `true` for every other present value. -/
theorem activation_zero_value_counterexample :
    pluginFade.shouldActivate = none ∧
    specTruthy (optValue optsZero (optionsKeyOf pluginFade)) = false ∧
    pluginFade ∈ getActivePlugins [pluginFade] optsZero := by
  refine ⟨rfl, by decide, ?_⟩
  have h : getActivePlugins [pluginFade] optsZero = [pluginFade] := rfl
  rw [h]
  exact List.mem_singleton_self pluginFade

/-- Claim C9 (amended): a module without an explicit activation predicate
is placed in the Activation Set iff the configured value under its option
key (`optionsKey`, defaulting to its name) is *present and not the boolean
`false`* — i.e. not `undefined`, not `null` and not `false`.  Falsy values
such as `0` and `""` therefore *do* activate the module. -/
theorem activation_iff_present_not_false (registry : List AnimationPlugin)
    (options : Options) (p : AnimationPlugin) (hmem : p ∈ registry)
    (hsa : p.shouldActivate = none) :
    p ∈ getActivePlugins registry options ↔
      (optValue options (optionsKeyOf p) ≠ JSValue.undefined ∧
       optValue options (optionsKeyOf p) ≠ JSValue.null ∧
       optValue options (optionsKeyOf p) ≠ JSValue.boolean false) := by
  unfold getActivePlugins
  rw [List.mem_filter]
  have hval : (match p.shouldActivate with
      | some shouldActivate => shouldActivate options
      | none => hasPluginOptions p options) = hasPluginOptions p options := by
    rw [hsa]
  rw [hval]
  unfold hasPluginOptions
  cases hv : optValue options (optionsKeyOf p) with
  | boolean b => cases b <;> simp [hmem]
  | _ => simp [hmem]

/-- Witness for `activation_iff_present_not_false`: the value `0` is
present and not `false`, so the plugin activates. -/
theorem activation_iff_present_not_false_witness :
    pluginFade ∈ getActivePlugins [pluginFade] optsZero :=
  (activation_iff_present_not_false [pluginFade] optsZero pluginFade
    (List.mem_singleton_self _) rfl).mpr (by decide)

/-! ### C10 — only the name before the first dot is validated -/

/-- Lemma: the inner requirement walk succeeds iff every requirement's
name-before-the-dot is active. -/
theorem validatePluginRequires_ok_iff (activeNames : List String)
    (pname : String) (reqs : List String) :
    validatePluginRequires activeNames pname reqs = Except.ok () ↔
      ∀ r ∈ reqs, firstComponent r ∈ activeNames := by
  induction reqs with
  | nil => simp [validatePluginRequires]
  | cons r rest ih =>
    by_cases hr : firstComponent r ∈ activeNames
    · simp [validatePluginRequires, hr, ih]
    · simp [validatePluginRequires, hr]

/-- Lemma: dependency validation succeeds iff every active plugin's every
requirement has an active name-before-the-dot. -/
theorem validateDependenciesAux_ok_iff (activeNames : List String)
    (plugins : List AnimationPlugin) :
    validateDependenciesAux activeNames plugins = Except.ok () ↔
      ∀ p ∈ plugins, ∀ r ∈ p.requires, firstComponent r ∈ activeNames := by
  induction plugins with
  | nil => simp [validateDependenciesAux]
  | cons p rest ih =>
    cases hv : validatePluginRequires activeNames p.name p.requires with
    | ok u =>
      cases u
      have hall := (validatePluginRequires_ok_iff _ _ _).mp hv
      simp [validateDependenciesAux, hv, ih]
      exact fun _ => hall
    | error e =>
      have hne : ¬(∀ r ∈ p.requires, firstComponent r ∈ activeNames) := by
        intro hall
        rw [(validatePluginRequires_ok_iff _ _ _).mpr hall] at hv
        cases hv
      simp [validateDependenciesAux, hv, hne]

/-- Claim C10: dependency validation inspects only the part of each
required key before the first `'.'`: `validateDependencies` succeeds
exactly when, for every active plugin, every entry of its `requires` list
has its leading name-component (e.g. `responsive` of `responsive.scale`)
among the active plugin names — the suffix after the dot is never
consulted, so a namespaced requirement is accepted whenever a plugin of
that leading name is active, whether or not the suffix capability exists. -/
theorem validateDependencies_only_checks_name_before_dot
    (activePlugins : List AnimationPlugin) :
    validateDependencies activePlugins = Except.ok () ↔
      ∀ p ∈ activePlugins, ∀ r ∈ p.requires,
        firstComponent r ∈ activePlugins.map AnimationPlugin.name := by
  unfold validateDependencies
  exact validateDependenciesAux_ok_iff _ _

/-! ### C1 — configuration errors abort before any setup -/

/-- Lemma: a failing requirement walk pinpoints an offending requirement
and produces exactly its dependency error message. -/
theorem validatePluginRequires_error (activeNames : List String)
    (pname : String) (reqs : List String) (e : String)
    (he : validatePluginRequires activeNames pname reqs = Except.error e) :
    ∃ r ∈ reqs, firstComponent r ∉ activeNames ∧
      e = depErrMsg pname (firstComponent r) := by
  induction reqs with
  | nil => simp [validatePluginRequires] at he
  | cons r rest ih =>
    by_cases hr : firstComponent r ∈ activeNames
    · rw [show validatePluginRequires activeNames pname (r :: rest) =
          validatePluginRequires activeNames pname rest from by
        simp [validatePluginRequires, hr]] at he
      obtain ⟨r', hr', hcond⟩ := ih he
      exact ⟨r', List.mem_cons_of_mem _ hr', hcond⟩
    · simp [validatePluginRequires, hr] at he
      exact ⟨r, List.mem_cons_self _ _, hr, he.symm⟩

/-- Lemma: a failing dependency validation pinpoints an offending plugin
and requirement and produces exactly the dependency error message. -/
theorem validateDependenciesAux_error (activeNames : List String)
    (plugins : List AnimationPlugin) (e : String)
    (he : validateDependenciesAux activeNames plugins = Except.error e) :
    ∃ p ∈ plugins, ∃ r ∈ p.requires, firstComponent r ∉ activeNames ∧
      e = depErrMsg p.name (firstComponent r) := by
  induction plugins with
  | nil => simp [validateDependenciesAux] at he
  | cons p rest ih =>
    cases hv : validatePluginRequires activeNames p.name p.requires with
    | ok u =>
      cases u
      rw [show validateDependenciesAux activeNames (p :: rest) =
          validateDependenciesAux activeNames rest from by
        simp [validateDependenciesAux, hv]] at he
      obtain ⟨p', hp', hrest⟩ := ih he
      exact ⟨p', List.mem_cons_of_mem _ hp', hrest⟩
    | error e' =>
      have hee : e' = e := by
        simp [validateDependenciesAux, hv] at he
        exact he
      subst hee
      obtain ⟨r, hr, hcond, heq⟩ := validatePluginRequires_error _ _ _ _ hv
      exact ⟨p, List.mem_cons_self _ _, r, hr, hcond, heq⟩

/-- Lemma: the inner conflict walk succeeds iff no declared conflict names
an active plugin. -/
theorem checkPluginConflicts_ok_iff (activeNames : List String)
    (pname : String) (conflicts : List String) :
    checkPluginConflicts activeNames pname conflicts = Except.ok () ↔
      ∀ c ∈ conflicts, c ∉ activeNames := by
  induction conflicts with
  | nil => simp [checkPluginConflicts]
  | cons c rest ih =>
    by_cases hc : c ∈ activeNames
    · simp [checkPluginConflicts, hc]
    · simp [checkPluginConflicts, hc, ih]

/-- Lemma: conflict validation succeeds iff no active plugin declares a
conflict with an active plugin name. -/
theorem checkConflictsAux_ok_iff (activeNames : List String)
    (plugins : List AnimationPlugin) :
    checkConflictsAux activeNames plugins = Except.ok () ↔
      ∀ p ∈ plugins, ∀ c ∈ p.conflicts, c ∉ activeNames := by
  induction plugins with
  | nil => simp [checkConflictsAux]
  | cons p rest ih =>
    cases hv : checkPluginConflicts activeNames p.name p.conflicts with
    | ok u =>
      cases u
      have hall := (checkPluginConflicts_ok_iff _ _ _).mp hv
      simp [checkConflictsAux, hv, ih]
      exact fun _ => hall
    | error e =>
      have hne : ¬(∀ c ∈ p.conflicts, c ∉ activeNames) := by
        intro hall
        rw [(checkPluginConflicts_ok_iff _ _ _).mpr hall] at hv
        cases hv
      simp [checkConflictsAux, hv, hne]

/-- Lemma: a failing conflict walk pinpoints an offending conflict entry
and produces exactly its conflict error message. -/
theorem checkPluginConflicts_error (activeNames : List String)
    (pname : String) (conflicts : List String) (e : String)
    (he : checkPluginConflicts activeNames pname conflicts = Except.error e) :
    ∃ c ∈ conflicts, c ∈ activeNames ∧ e = conflictErrMsg pname c := by
  induction conflicts with
  | nil => simp [checkPluginConflicts] at he
  | cons c rest ih =>
    by_cases hc : c ∈ activeNames
    · simp [checkPluginConflicts, hc] at he
      exact ⟨c, List.mem_cons_self _ _, hc, he.symm⟩
    · rw [show checkPluginConflicts activeNames pname (c :: rest) =
          checkPluginConflicts activeNames pname rest from by
        simp [checkPluginConflicts, hc]] at he
      obtain ⟨c', hc', hcond⟩ := ih he
      exact ⟨c', List.mem_cons_of_mem _ hc', hcond⟩

/-- Lemma: a failing conflict validation pinpoints the offending plugin
and conflict and produces exactly the conflict error message. -/
theorem checkConflictsAux_error (activeNames : List String)
    (plugins : List AnimationPlugin) (e : String)
    (he : checkConflictsAux activeNames plugins = Except.error e) :
    ∃ p ∈ plugins, ∃ c ∈ p.conflicts, c ∈ activeNames ∧
      e = conflictErrMsg p.name c := by
  induction plugins with
  | nil => simp [checkConflictsAux] at he
  | cons p rest ih =>
    cases hv : checkPluginConflicts activeNames p.name p.conflicts with
    | ok u =>
      cases u
      rw [show checkConflictsAux activeNames (p :: rest) =
          checkConflictsAux activeNames rest from by
        simp [checkConflictsAux, hv]] at he
      obtain ⟨p', hp', hrest⟩ := ih he
      exact ⟨p', List.mem_cons_of_mem _ hp', hrest⟩
    | error e' =>
      have hee : e' = e := by
        simp [checkConflictsAux, hv] at he
        exact he
      subst hee
      obtain ⟨c, hc, hcin, heq⟩ := checkPluginConflicts_error _ _ _ _ hv
      exact ⟨p, List.mem_cons_self _ _, c, hc, hcin, heq⟩

/-- The dependency error message names the declaring plugin. -/
theorem depErrMsg_names_first (pname req : String) :
    messageNames (depErrMsg pname req) pname :=
  ⟨"Plugin \x27",
   "\x27 requires \x27" ++ req ++ "\x27 but it is not enabled. Add " ++ req ++
     ": \x7b...\x7d to your options.",
   by simp [depErrMsg, String.append_assoc]⟩

/-- The dependency error message names the missing required plugin. -/
theorem depErrMsg_names_required (pname req : String) :
    messageNames (depErrMsg pname req) req :=
  ⟨"Plugin \x27" ++ pname ++ "\x27 requires \x27",
   "\x27 but it is not enabled. Add " ++ req ++ ": \x7b...\x7d to your options.",
   by simp [depErrMsg, String.append_assoc]⟩

/-- The conflict error message names the declaring plugin. -/
theorem conflictErrMsg_names_first (pname cname : String) :
    messageNames (conflictErrMsg pname cname) pname :=
  ⟨"Plugin \x27",
   "\x27 conflicts with \x27" ++ cname ++
     "\x27. You cannot use both plugins simultaneously.",
   by simp [conflictErrMsg, String.append_assoc]⟩

/-- The conflict error message names the conflicting plugin. -/
theorem conflictErrMsg_names_conflict (pname cname : String) :
    messageNames (conflictErrMsg pname cname) cname :=
  ⟨"Plugin \x27" ++ pname ++ "\x27 conflicts with \x27",
   "\x27. You cannot use both plugins simultaneously.",
   by simp [conflictErrMsg, String.append_assoc]⟩

/-- Claim C1: whenever some active module has an unmet hard dependency
(the name before the first dot of a `requires` entry is not active) or
declares a conflict with an active module, `setupPlugins` throws before
any module's `setup` runs — the executed-setup trace is empty — and the
thrown message names both implicated modules: the declaring plugin and the
missing dependency (resp. the conflicting plugin). -/
theorem setupPlugins_config_error_before_setup
    (registry : List AnimationPlugin) (options : Options)
    (h : unmetDependencyExists (getActivePlugins registry options) ∨
         activeConflictExists (getActivePlugins registry options)) :
    ∃ msg, setupPluginsRun registry options = (some msg, []) ∧
      ∃ p ∈ getActivePlugins registry options, ∃ other : String,
        messageNames msg p.name ∧ messageNames msg other ∧
        ((∃ r ∈ p.requires, firstComponent r = other ∧
            other ∉ (getActivePlugins registry options).map
              AnimationPlugin.name) ∨
         (other ∈ p.conflicts ∧
            other ∈ (getActivePlugins registry options).map
              AnimationPlugin.name)) := by
  cases hv : validateDependencies (getActivePlugins registry options) with
  | error e =>
    have hrun : setupPluginsRun registry options = (some e, []) := by
      simp only [setupPluginsRun, hv]
    obtain ⟨p, hp, r, hr, hnot, heq⟩ := validateDependenciesAux_error _ _ e hv
    refine ⟨e, hrun, p, hp, firstComponent r, ?_, ?_, Or.inl ⟨r, hr, rfl, hnot⟩⟩
    · rw [heq]
      exact depErrMsg_names_first _ _
    · rw [heq]
      exact depErrMsg_names_required _ _
  | ok u =>
    cases u
    have hdeps := (validateDependenciesAux_ok_iff _ _).mp hv
    have hconf : activeConflictExists (getActivePlugins registry options) := by
      rcases h with hdep | hcf
      · exfalso
        obtain ⟨p, hp, r, hr, hnot⟩ := hdep
        exact hnot (hdeps p hp r hr)
      · exact hcf
    cases hc : checkConflicts (getActivePlugins registry options) with
    | ok u' =>
      exfalso
      obtain ⟨p, hp, c, hcc, hcin⟩ := hconf
      cases u'
      exact ((checkConflictsAux_ok_iff _ _).mp hc p hp c hcc) hcin
    | error e =>
      have hrun : setupPluginsRun registry options = (some e, []) := by
        simp only [setupPluginsRun, hv, hc]
      obtain ⟨p, hp, c, hcc, hcin, heq⟩ := checkConflictsAux_error _ _ e hc
      refine ⟨e, hrun, p, hp, c, ?_, ?_, Or.inr ⟨hcc, hcin⟩⟩
      · rw [heq]
        exact conflictErrMsg_names_first _ _
      · rw [heq]
        exact conflictErrMsg_names_conflict _ _

/-- An active plugin whose hard dependency `"missing"` is not active. -/
def pluginNeedy : AnimationPlugin :=
  { name := "needy", version := "1.0.0", priority := none,
    cleanupPriority := none, optionsKey := none, requires := ["missing"],
    conflicts := [], shouldActivate := none }

/-- A configuration that activates `pluginNeedy` only. -/
def optsNeedy : Options := [("needy", JSValue.object)]

/-- Witness for `setupPlugins_config_error_before_setup` at a registry
whose single active plugin requires the inactive plugin `"missing"`. -/
theorem setupPlugins_config_error_before_setup_witness :
    ∃ msg, setupPluginsRun [pluginNeedy] optsNeedy = (some msg, []) ∧
      ∃ p ∈ getActivePlugins [pluginNeedy] optsNeedy, ∃ other : String,
        messageNames msg p.name ∧ messageNames msg other ∧
        ((∃ r ∈ p.requires, firstComponent r = other ∧
            other ∉ (getActivePlugins [pluginNeedy] optsNeedy).map
              AnimationPlugin.name) ∨
         (other ∈ p.conflicts ∧
            other ∈ (getActivePlugins [pluginNeedy] optsNeedy).map
              AnimationPlugin.name)) :=
  setupPlugins_config_error_before_setup [pluginNeedy] optsNeedy
    (Or.inl (by decide))
